import Mathlib

/-!
Verification of the tiny-imagenet-200 training harness.

The Python source (src/tiny-imagenet-200.py) is shallowly embedded below:
pure numeric computations (loss aggregation, accuracy counting, the learning
rate schedule, the progress-report counter) become Lean functions over `ℚ`
and `ℕ`, and the straight-line effectful body of `main` becomes an explicit
trace of events, so that ordering properties (seeding before construction,
one scheduler step per epoch, no training/evaluation when `epochs ≤ 0`) are
statements about a concrete list.
-/

namespace TinyImageNet

/-! ### DataLoader keyword arguments (main, lines 167-174)

`train_kwargs`/`test_kwargs` start as `{'batch_size': …}`; when CUDA is in
use both are updated with `{'num_workers': 2, 'pin_memory': True,
'shuffle': True}`.  PyTorch `DataLoader` defaults otherwise: `num_workers=0`,
`pin_memory=False`, `shuffle=False`. -/

structure LoaderKwargs where
  batch_size : Int
  num_workers : Nat
  pin_memory : Bool
  shuffle : Bool
deriving DecidableEq, Repr

def trainKwargs (useCuda : Bool) (bs : Int) : LoaderKwargs :=
  if useCuda then ⟨bs, 2, true, true⟩ else ⟨bs, 0, false, false⟩

def testKwargs (useCuda : Bool) (bs : Int) : LoaderKwargs :=
  if useCuda then ⟨bs, 2, true, true⟩ else ⟨bs, 0, false, false⟩

/-! ### Model registry (classes at lines 20-85, MODEL_MAP at lines 210-216)

Each wrapper class calls `torch.hub.load(..., pretrained=False,
num_classes=200)`; `MODEL_MAP` maps the five model-name keys to the five
wrapper classes. -/

structure ModelSpec where
  arch : String
  pretrained : Bool
  num_classes : Nat
deriving DecidableEq, Repr

def MODEL_MAP : List (String × ModelSpec) :=
  [("resnet18", ⟨"resnet18", false, 200⟩),
   ("resnet34", ⟨"resnet34", false, 200⟩),
   ("resnet50", ⟨"resnet50", false, 200⟩),
   ("resnet101", ⟨"resnet101", false, 200⟩),
   ("resnet152", ⟨"resnet152", false, 200⟩)]

def modelChoices : List String := MODEL_MAP.map Prod.fst

/-- Instantiating `MODEL_MAP[args.model]()` (main, line 199): key lookup in
the registry. -/
def constructModel (name : String) : Option ModelSpec :=
  MODEL_MAP.lookup name

/-! ### Parsed command-line arguments (main, lines 133-147)

`argparse` fields with their Python types: `int` flags may be negative
(argparse performs no positivity check), `--model` is restricted by
`choices=MODEL_MAP.keys()`. -/

structure RawArgs where
  data : String
  batch_size : Int
  test_batch_size : Int
  epochs : Int
  lr : ℚ
  no_cuda : Bool
  gpu_num : String
  model : String
deriving DecidableEq, Repr

/-- The only value validation `argparse` performs on this surface is the
`choices` check on `--model` (line 146); every integer parses as-is. -/
def parseArgs (raw : RawArgs) : Except String RawArgs :=
  if raw.model ∈ modelChoices then .ok raw
  else .error ("argument --model: invalid choice: " ++ raw.model)

/-! ### The event trace of `main` (lines 149-208) -/

inductive Event where
  | setEnvDeviceOrder
  | setEnvVisible (gpu : String)
  | setDeterministicFlags
  | seedTorch (v : Nat)
  | seedCudaAll (v : Nat)
  | seedRandom (v : Nat)
  | seedNumpy (v : Nat)
  | printDevice (cuda : Bool)
  | printVga (gpu : String)
  | buildTrainSet (dir : String)
  | buildTestSet (dir : String)
  | buildTrainLoader (kw : LoaderKwargs)
  | buildTestLoader (kw : LoaderKwargs)
  | buildModel (name : String)
  | buildCriterion
  | buildOptimizer (lr : ℚ)
  | buildScheduler
  | trainEpoch (e : Nat)
  | evalEpoch (e : Nat)
  | schedStep
deriving DecidableEq, Repr

/-- Body of one iteration of the epoch loop (main, lines 204-208):
train, then test, then `scheduler.step()`. -/
def epochBody (e : Nat) : List Event :=
  [Event.trainEpoch e, Event.evalEpoch e, Event.schedStep]

/-- `for epoch in range(1, epochs+1)` unrolled: `epochTrace n` is the trace
of the loop run for `n` iterations (epochs numbered from 1). -/
def epochTrace : Nat → List Event
  | 0 => []
  | n + 1 => epochTrace n ++ epochBody (n + 1)

/-- `use_cuda = not args.no_cuda and torch.cuda.is_available()` (line 152). -/
def useCuda (cudaAvailable : Bool) (raw : RawArgs) : Bool :=
  !raw.no_cuda && cudaAvailable

/-- The straight-line effect trace of `main` after argument parsing
(lines 149-208), in source order: environment variables, cudnn flags,
the four seed calls, device banner (plus the VGA line under CUDA),
dataset/loader/model/criterion/optimizer/scheduler construction, then the
epoch loop.  `range(1, epochs+1)` has `max epochs 0 = epochs.toNat`
iterations. -/
def mainTrace (cudaAvailable : Bool) (raw : RawArgs) : List Event :=
  let uc := useCuda cudaAvailable raw
  [Event.setEnvDeviceOrder,
   Event.setEnvVisible raw.gpu_num,
   Event.setDeterministicFlags,
   Event.seedTorch 42,
   Event.seedCudaAll 42,
   Event.seedRandom 42,
   Event.seedNumpy 42,
   Event.printDevice uc]
  ++ (if uc then [Event.printVga raw.gpu_num] else [])
  ++ [Event.buildTrainSet raw.data,
      Event.buildTestSet raw.data,
      Event.buildTrainLoader (trainKwargs uc raw.batch_size),
      Event.buildTestLoader (testKwargs uc raw.test_batch_size),
      Event.buildModel raw.model,
      Event.buildCriterion,
      Event.buildOptimizer raw.lr,
      Event.buildScheduler]
  ++ epochTrace raw.epochs.toNat

/-- The whole program: parse, then run `main`'s body.  An invalid `--model`
value aborts at parse time, before any event of `mainTrace` happens. -/
def runMain (cudaAvailable : Bool) (raw : RawArgs) : Except String (List Event) :=
  (parseArgs raw).map (mainTrace cudaAvailable)

/-! ### Event classifiers -/

def isSeedEvent : Event → Bool
  | .seedTorch _ => true
  | .seedCudaAll _ => true
  | .seedRandom _ => true
  | .seedNumpy _ => true
  | _ => false

def isDataBuild : Event → Bool
  | .buildTrainSet _ => true
  | .buildTestSet _ => true
  | .buildTrainLoader _ => true
  | .buildTestLoader _ => true
  | _ => false

def isModelBuild : Event → Bool
  | .buildModel _ => true
  | _ => false

def isTrainEvent : Event → Bool
  | .trainEpoch _ => true
  | _ => false

def isEvalEvent : Event → Bool
  | .evalEpoch _ => true
  | _ => false

def isSchedStep : Event → Bool
  | .schedStep => true
  | _ => false

def isBanner : Event → Bool
  | .printDevice _ => true
  | _ => false

/-! ### Training-loss aggregation (train, lines 87-108)

The criterion is `nn.CrossEntropyLoss(reduction='sum')` (line 200): on a
batch it returns the SUM of the per-sample losses.  The loop accumulates
`training_loss_sum += loss.item()` over the batches and at line 106 reports
`training_loss_sum / len(train_loader.dataset)`.  Samples and the per-sample
loss are abstract: the model's parameters and the loss function only enter
through the per-sample loss value `ℓ s : ℚ`. -/

/-- Sum-reduced batch loss: `criterion(output, target)` with
`reduction='sum'` is the sum of the per-sample losses over the batch. -/
def batchLoss {α : Type} (ℓ : α → ℚ) (batch : List α) : ℚ :=
  (batch.map ℓ).sum

/-- The accumulator loop `training_loss_sum += loss.item()` over the
batches of the epoch (train, lines 91-100). -/
def trainingLossSum {α : Type} (ℓ : α → ℚ) (batches : List (List α)) : ℚ :=
  batches.foldl (fun acc b => acc + batchLoss ℓ b) 0

/-- The end-of-epoch reported figure
`training_loss_sum / len(train_loader.dataset)` (train, line 106). -/
def epochMeanLoss {α : Type} (ℓ : α → ℚ) (batches : List (List α))
    (datasetSize : ℕ) : ℚ :=
  trainingLossSum ℓ batches / datasetSize

/-! ### Progress-report counter (train, lines 101-105)

Per batch: `processed_samples += len(data)`; then
`if processed_samples > 2000 or batch_idx == len(train_loader)-1:` flush the
progress bar and reset `processed_samples = 0`. -/

def flushThreshold : ℕ := 2000

/-- One epoch of the progress counter: `n` is `len(train_loader)` (the
number of batches), the state is `(batch_idx, processed_samples)`, and each
entry of the output records whether that batch flushed and the value of
`processed_samples` after the batch. -/
def progressAux (n : ℕ) : ℕ → ℕ → List ℕ → List (Bool × ℕ)
  | _, _, [] => []
  | i, acc, b :: rest =>
    let acc2 := acc + b
    let fl := decide (flushThreshold < acc2) || decide (i = n - 1)
    let acc3 := if fl then 0 else acc2
    (fl, acc3) :: progressAux n (i + 1) acc3 rest

/-- The flush/counter trace of one training epoch given the batch sizes. -/
def progressTrace (sizes : List ℕ) : List (Bool × ℕ) :=
  progressAux sizes.length 0 0 sizes

/-- The value of `processed_samples` just before batch `i` is processed:
`0` at the loop entry, and otherwise whatever the previous batch left. -/
def accBefore (sizes : List ℕ) : ℕ → ℕ
  | 0 => 0
  | i + 1 => ((progressTrace sizes).getD i (false, 0)).2

/-- The entry the progress counter produces for one batch: `n` is the batch
count, `i` the batch index, `acc` the counter before the batch, `b` the
batch size. -/
def progressEntry (n i acc b : ℕ) : Bool × ℕ :=
  let acc2 := acc + b
  let fl := decide (flushThreshold < acc2) || decide (i = n - 1)
  (fl, if fl then 0 else acc2)

/-! ### Learning-rate schedule (main, line 202; loop, line 208)

`StepLR(optimizer, step_size=1, gamma=0.7)`: with `step_size=1` every call
of `scheduler.step()` multiplies the learning rate by `gamma = 0.7`. -/

def gamma : ℚ := 7 / 10

/-- One `scheduler.step()` call. -/
def schedStepLR (lr : ℚ) : ℚ := lr * gamma

/-- The learning rate after `n` calls of `scheduler.step()` starting from
`r`. -/
def lrAfter : ℕ → ℚ → ℚ
  | 0, r => r
  | n + 1, r => schedStepLR (lrAfter n r)

/-! ### Evaluation loop (test, lines 110-129)

The loop runs under `torch.no_grad()` and none of its statements writes to
the model: embedded as explicit state passing, each batch step returns the
network state unchanged.  The network state carries the parameters and the
gradient accumulators; `forward` reads only the parameters.  Per batch the
loop adds `criterion(output, target).item()` (sum reduction, as above) to
`test_loss` and the number of rows whose arg-max class equals the label to
`correct`; at line 123 it divides `test_loss` by `len(test_loader.dataset)`
and reports `correct / len(test_loader.dataset)` as the accuracy. -/

structure NetState (P G : Type) where
  params : P
  grads : G
deriving DecidableEq

/-- Index of the first maximal entry of the logit row,
`output.argmax(dim=1)` on one row (test, line 120). -/
def argmaxAux : ℕ → ℕ → ℚ → List ℚ → ℕ
  | _, best, _, [] => best
  | i, best, bv, x :: xs =>
    if bv < x then argmaxAux (i + 1) i x xs else argmaxAux (i + 1) best bv xs

def argmaxIdx : List ℚ → ℕ
  | [] => 0
  | x :: xs => argmaxAux 1 0 x xs

/-- One batch of the evaluation loop (test, lines 116-121): forward the
inputs, add the sum-reduced batch loss, count the arg-max hits; the network
state is only read, never written (the body runs under `torch.no_grad()`
and contains no optimizer call). -/
def testBatchStep {P G α : Type} (forward : P → α → List ℚ)
    (lossFn : List ℚ → ℕ → ℚ) (st : NetState P G) (batch : List (α × ℕ)) :
    NetState P G × ℚ × ℕ :=
  let rows := batch.map (fun s => (forward st.params s.1, s.2))
  let loss := (rows.map (fun r => lossFn r.1 r.2)).sum
  let corr := (rows.filter (fun r => argmaxIdx r.1 == r.2)).length
  (st, loss, corr)

/-- The full evaluation pass (test, lines 113-121): fold over the batches
accumulating `test_loss` and `correct`, threading the network state. -/
def testPass {P G α : Type} (forward : P → α → List ℚ)
    (lossFn : List ℚ → ℕ → ℚ) (st : NetState P G)
    (batches : List (List (α × ℕ))) : NetState P G × ℚ × ℕ :=
  batches.foldl
    (fun acc b =>
      let r := testBatchStep forward lossFn acc.1 b
      (r.1, acc.2.1 + r.2.1, acc.2.2 + r.2.2))
    (st, 0, 0)

/-- The metrics `test` reports (lines 123-128): mean loss
`test_loss / len(dataset)` and accuracy `correct / len(dataset)`. -/
def testMetrics {P G α : Type} (forward : P → α → List ℚ)
    (lossFn : List ℚ → ℕ → ℚ) (st : NetState P G)
    (batches : List (List (α × ℕ))) (datasetSize : ℕ) : ℚ × ℚ :=
  let r := testPass forward lossFn st batches
  (r.2.1 / datasetSize, (r.2.2 : ℚ) / datasetSize)

/-! ### Pseudo-random-source state (main, lines 158-161)

The four seed calls `torch.manual_seed(42)`, `torch.cuda.manual_seed_all(42)`,
`random.seed(42)`, `np.random.seed(42)` each overwrite one source's state;
dataset construction, model construction and the train/eval steps consume
(advance) sources.  Interpreting the trace on this state shows the state at
every downstream consumer is a function of the seed values alone. -/

structure RngStates where
  torch : ℕ
  cuda : ℕ
  python : ℕ
  numpy : ℕ
deriving DecidableEq, Repr

def rngStep (e : Event) (s : RngStates) : RngStates :=
  match e with
  | .seedTorch v => { s with torch := v }
  | .seedCudaAll v => { s with cuda := v }
  | .seedRandom v => { s with python := v }
  | .seedNumpy v => { s with numpy := v }
  | .buildTrainSet _ => { s with torch := s.torch + 1, python := s.python + 1 }
  | .buildTestSet _ => { s with torch := s.torch + 1, python := s.python + 1 }
  | .buildModel _ => { s with torch := s.torch + 1 }
  | .trainEpoch _ => { s with torch := s.torch + 1, numpy := s.numpy + 1 }
  | _ => s

/-- The pseudo-random state just before the first event satisfying `p`
(the final state when no event matches). -/
def rngAtFirst (p : Event → Bool) : List Event → RngStates → RngStates
  | [], s => s
  | e :: es, s => if p e then s else rngAtFirst p es (rngStep e s)

/-- The pseudo-random state after the whole trace. -/
def rngRun (tr : List Event) (s : RngStates) : RngStates :=
  tr.foldl (fun s e => rngStep e s) s

/-! ### Helper lemmas -/

lemma trainingLossSum_foldl {α : Type} (ℓ : α → ℚ) :
    ∀ (batches : List (List α)) (a : ℚ),
      batches.foldl (fun acc b => acc + batchLoss ℓ b) a =
        a + (batches.map (batchLoss ℓ)).sum := by
  intro batches
  induction batches with
  | nil => simp
  | cons b bs ih => intro a; simp [ih, add_assoc]

lemma trainingLossSum_eq_flatten {α : Type} (ℓ : α → ℚ)
    (batches : List (List α)) :
    trainingLossSum ℓ batches = (batches.flatten.map ℓ).sum := by
  rw [trainingLossSum, trainingLossSum_foldl, zero_add, List.map_flatten,
    List.sum_flatten, List.map_map]
  rfl

lemma countP_epochTrace_schedStep (n : ℕ) :
    (epochTrace n).countP isSchedStep = n := by
  induction n with
  | zero => rfl
  | succ k ih =>
      simp [epochTrace, List.countP_append, ih, epochBody, List.countP_cons,
        isSchedStep]

lemma filter_epochTrace_seed (n : ℕ) :
    (epochTrace n).filter isSeedEvent = [] := by
  induction n with
  | zero => rfl
  | succ k ih =>
      simp [epochTrace, List.filter_append, ih, epochBody, isSeedEvent]

lemma countP_epochTrace_train_eval (n : ℕ) :
    (epochTrace n).countP isTrainEvent = n ∧
      (epochTrace n).countP isEvalEvent = n := by
  induction n with
  | zero => exact ⟨rfl, rfl⟩
  | succ k ih =>
      refine ⟨?_, ?_⟩ <;>
        simp [epochTrace, List.countP_append, ih.1, ih.2, epochBody,
          List.countP_cons, isTrainEvent, isEvalEvent]

/-! ### Claim theorems -/

/-- C1: the reported end-of-epoch mean training loss equals the sum of the
per-batch sum-reduced losses divided by the total number of samples in the
training dataset, for EVERY partition of the dataset into batches (hence
for every batch size, a smaller last batch included): the aggregate always
equals the same dataset-wide mean. -/
theorem epoch_mean_loss_batch_invariant {α : Type} (ℓ : α → ℚ)
    (dataset : List α) (batches : List (List α))
    (hjoin : batches.flatten = dataset) (hne : dataset ≠ []) :
    epochMeanLoss ℓ batches dataset.length =
      (dataset.map ℓ).sum / dataset.length := by
  subst hjoin
  rw [epochMeanLoss, trainingLossSum_eq_flatten]

/-- Witness for C1: the dataset `[1, 2, 3]` split into the uneven batches
`[[1, 2], [3]]` reports the dataset-wide mean. -/
theorem epoch_mean_loss_batch_invariant_witness :
    epochMeanLoss (fun q => q) [[(1 : ℚ), 2], [3]] 3 =
      (([(1 : ℚ), 2, 3]).map (fun q => q)).sum / 3 :=
  epoch_mean_loss_batch_invariant (fun q => q) [(1 : ℚ), 2, 3]
    [[(1 : ℚ), 2], [3]] rfl (by simp)

/-- C2 counterexample: it is NOT the case that the training loader shuffles
and the evaluation loader preserves order regardless of the device: on the
CPU path the training loader is built with `shuffle = false`, and on the
CUDA path the evaluation loader is built with `shuffle = true`. -/
theorem loader_shuffle_claim_false :
    (trainKwargs false 128).shuffle = false ∧
      (testKwargs true 1000).shuffle = true := by
  constructor <;> rfl

/-- C2 (amended): both loaders shuffle exactly when the CUDA path is
active — with CUDA available and not disabled, the training AND the
evaluation loader shuffle; otherwise neither does.  The loaders built by
`main` carry exactly these keyword arguments. -/
theorem loader_shuffle_iff_cuda (cuda : Bool) (raw : RawArgs) :
    (trainKwargs (useCuda cuda raw) raw.batch_size).shuffle =
        useCuda cuda raw ∧
      (testKwargs (useCuda cuda raw) raw.test_batch_size).shuffle =
        useCuda cuda raw ∧
      Event.buildTrainLoader (trainKwargs (useCuda cuda raw) raw.batch_size) ∈
        mainTrace cuda raw ∧
      Event.buildTestLoader (testKwargs (useCuda cuda raw) raw.test_batch_size) ∈
        mainTrace cuda raw := by
  cases h : useCuda cuda raw <;>
    simp [trainKwargs, testKwargs, mainTrace, h]

/-- C3: starting from any rate `r > 0`, `n` scheduler steps yield exactly
`r·0.7ⁿ`; the rate stays strictly positive and strictly decreases at every
step; and the trace of `main` performs exactly one `scheduler.step()` per
epoch (one per epoch body, `epochs.toNat` in the whole run). -/
theorem schedule_decay (r : ℚ) (hr : 0 < r) (n : ℕ) :
    lrAfter n r = r * gamma ^ n ∧ 0 < lrAfter n r ∧
      lrAfter (n + 1) r < lrAfter n r ∧
      (∀ e, (epochBody e).countP isSchedStep = 1) ∧
      (∀ cuda raw, (mainTrace cuda raw).countP isSchedStep =
        raw.epochs.toNat) := by
  have hpow : ∀ m, lrAfter m r = r * gamma ^ m := by
    intro m
    induction m with
    | zero => simp [lrAfter]
    | succ k ih => rw [lrAfter, schedStepLR, ih, pow_succ, mul_assoc]
  have hpos : ∀ m, 0 < lrAfter m r := by
    intro m
    rw [hpow]
    exact mul_pos hr (pow_pos (by norm_num [gamma]) m)
  refine ⟨hpow n, hpos n, ?_, ?_, ?_⟩
  · have : lrAfter (n + 1) r = lrAfter n r * gamma := rfl
    rw [this]
    exact mul_lt_of_lt_one_right (hpos n) (by norm_num [gamma])
  · intro e
    simp [epochBody, List.countP_cons, isSchedStep]
  · intro cuda raw
    cases h : useCuda cuda raw <;>
      simp [mainTrace, h, List.countP_append, List.countP_cons, isSchedStep,
        countP_epochTrace_schedStep]

/-- Witness for C3 at `r = 1`, `n = 2`. -/
theorem schedule_decay_witness :
    0 < (1 : ℚ) ∧
      (lrAfter 2 1 = 1 * gamma ^ 2 ∧ 0 < lrAfter 2 1 ∧
        lrAfter 3 1 < lrAfter 2 1 ∧
        (∀ e, (epochBody e).countP isSchedStep = 1) ∧
        (∀ cuda raw, (mainTrace cuda raw).countP isSchedStep =
          raw.epochs.toNat)) :=
  ⟨by norm_num, schedule_decay 1 (by norm_num) 2⟩

lemma constructModel_not_mem (name : String) (h : name ∉ modelChoices) :
    constructModel name = none := by
  simp only [modelChoices, MODEL_MAP, List.map_cons, List.map_nil,
    List.mem_cons, List.not_mem_nil, or_false] at h
  push_neg at h
  obtain ⟨h1, h2, h3, h4, h5⟩ := h
  simp [constructModel, MODEL_MAP, List.lookup_cons, List.lookup_nil,
    beq_false_of_ne h1, beq_false_of_ne h2, beq_false_of_ne h3,
    beq_false_of_ne h4, beq_false_of_ne h5]

/-- C4: model construction succeeds exactly for the five recognized keys;
each recognized key yields a non-pretrained classifier with output width
200; and any unrecognized name makes the whole run fail at argument-parse
time with a listed-choices error, before any event of `main`'s body (data
construction included) happens. -/
theorem model_registry_contract (name : String) :
    ((constructModel name).isSome = true ↔ name ∈ modelChoices) ∧
      (∀ spec, constructModel name = some spec →
        spec.pretrained = false ∧ spec.num_classes = 200) ∧
      (name ∉ modelChoices → ∀ cuda (raw : RawArgs), raw.model = name →
        runMain cuda raw =
          .error ("argument --model: invalid choice: " ++ name)) := by
  refine ⟨⟨?_, ?_⟩, ?_, ?_⟩
  · intro hs
    by_contra hmem
    rw [constructModel_not_mem name hmem] at hs
    simp at hs
  · intro hmem
    simp only [modelChoices, MODEL_MAP, List.map_cons, List.map_nil,
      List.mem_cons, List.not_mem_nil, or_false] at hmem
    rcases hmem with h1 | h1 | h1 | h1 | h1 <;> subst h1 <;> rfl
  · intro spec h
    by_cases hmem : name ∈ modelChoices
    · simp only [modelChoices, MODEL_MAP, List.map_cons, List.map_nil,
        List.mem_cons, List.not_mem_nil, or_false] at hmem
      rcases hmem with h1 | h1 | h1 | h1 | h1 <;> subst h1 <;>
        · cases Option.some.inj h
          exact ⟨rfl, rfl⟩
    · rw [constructModel_not_mem name hmem] at h
      exact Option.noConfusion h
  · intro hn cuda raw hm
    simp [runMain, parseArgs, hm, hn, Except.map]

/-- Witness for C4: the run with `--model alexnet` fails at parse time, and
the recognized key `resnet50` constructs a fresh 200-class model. -/
theorem model_registry_contract_witness :
    runMain false ⟨"d", 128, 1000, 10, 1 / 10, false, "0", "alexnet"⟩ =
        .error ("argument --model: invalid choice: " ++ "alexnet") ∧
      ((constructModel "resnet50").isSome = true ↔
        "resnet50" ∈ modelChoices) :=
  ⟨(model_registry_contract "alexnet").2.2 (by decide) false _ rfl,
   (model_registry_contract "resnet50").1⟩

/-- C9: whatever the command-line configuration, the run's seed events are
exactly the four calls seeding torch, CUDA, Python and NumPy, each with the
fixed constant 42 — no field of the parsed arguments can change that. -/
theorem seed_always_42 (cuda : Bool) (raw : RawArgs) :
    (mainTrace cuda raw).filter isSeedEvent =
      [Event.seedTorch 42, Event.seedCudaAll 42,
       Event.seedRandom 42, Event.seedNumpy 42] := by
  cases h : useCuda cuda raw <;>
    simp [mainTrace, h, List.filter_append, filter_epochTrace_seed,
      isSeedEvent]

/-- C10: a zero or negative `--epochs` value is accepted by argument
parsing (for a recognized model), the epoch loop body never runs — the
trace contains no training and no evaluation event — and the device banner
is still printed; the run ends normally. -/
theorem nonpositive_epochs_no_training (cuda : Bool) (raw : RawArgs)
    (hm : raw.model ∈ modelChoices) (he : raw.epochs ≤ 0) :
    runMain cuda raw = .ok (mainTrace cuda raw) ∧
      (mainTrace cuda raw).countP isTrainEvent = 0 ∧
      (mainTrace cuda raw).countP isEvalEvent = 0 ∧
      Event.printDevice (useCuda cuda raw) ∈ mainTrace cuda raw := by
  have hz : raw.epochs.toNat = 0 := Int.toNat_of_nonpos he
  refine ⟨by simp [runMain, parseArgs, hm, Except.map], ?_, ?_, ?_⟩ <;>
    cases h : useCuda cuda raw <;>
      simp [mainTrace, h, hz, List.countP_append, List.countP_cons,
        isTrainEvent, isEvalEvent, epochTrace]

/-- Witness for C10 at `--epochs 0` with the default model on the CPU
path. -/
theorem nonpositive_epochs_no_training_witness :
    runMain false ⟨"d", 128, 1000, 0, 1 / 10, false, "0", "resnet18"⟩ =
        .ok (mainTrace false ⟨"d", 128, 1000, 0, 1 / 10, false, "0", "resnet18"⟩) ∧
      (mainTrace false ⟨"d", 128, 1000, 0, 1 / 10, false, "0", "resnet18"⟩).countP
          isTrainEvent = 0 ∧
      (mainTrace false ⟨"d", 128, 1000, 0, 1 / 10, false, "0", "resnet18"⟩).countP
          isEvalEvent = 0 ∧
      Event.printDevice
          (useCuda false ⟨"d", 128, 1000, 0, 1 / 10, false, "0", "resnet18"⟩) ∈
        mainTrace false ⟨"d", 128, 1000, 0, 1 / 10, false, "0", "resnet18"⟩ :=
  nonpositive_epochs_no_training false _ (by decide) (by decide)

lemma testPass_foldl_fst {P G α : Type} (forward : P → α → List ℚ)
    (lossFn : List ℚ → ℕ → ℚ) :
    ∀ (batches : List (List (α × ℕ))) (st : NetState P G) (a : ℚ) (b : ℕ),
      (batches.foldl
        (fun acc bch =>
          let r := testBatchStep forward lossFn acc.1 bch
          (r.1, acc.2.1 + r.2.1, acc.2.2 + r.2.2)) (st, a, b)).1 = st := by
  intro batches
  induction batches with
  | nil => intros; rfl
  | cons hd tl ih => intro st a b; exact ih st _ _

lemma testPass_foldl_metrics {P G α : Type} (forward : P → α → List ℚ)
    (lossFn : List ℚ → ℕ → ℚ) :
    ∀ (batches : List (List (α × ℕ))) (st : NetState P G) (a : ℚ) (b : ℕ),
      (batches.foldl
        (fun acc bch =>
          let r := testBatchStep forward lossFn acc.1 bch
          (r.1, acc.2.1 + r.2.1, acc.2.2 + r.2.2)) (st, a, b)).2.1 =
          a + (batches.map
            (fun bch => (bch.map
              (fun s => lossFn (forward st.params s.1) s.2)).sum)).sum ∧
        (batches.foldl
          (fun acc bch =>
            let r := testBatchStep forward lossFn acc.1 bch
            (r.1, acc.2.1 + r.2.1, acc.2.2 + r.2.2)) (st, a, b)).2.2 =
          b + (batches.map
            (fun bch => bch.countP
              (fun s => argmaxIdx (forward st.params s.1) == s.2))).sum := by
  intro batches
  induction batches with
  | nil => intros; constructor <;> simp
  | cons hd tl ih =>
      intro st a b
      have h := ih st (a + (testBatchStep forward lossFn st hd).2.1)
        (b + (testBatchStep forward lossFn st hd).2.2)
      constructor
      · rw [List.foldl_cons]
        refine (h.1).trans ?_
        simp [testBatchStep, List.map_map, Function.comp_def, add_assoc]
      · rw [List.foldl_cons]
        refine (h.2).trans ?_
        simp [testBatchStep, List.countP_eq_length_filter, List.map_map,
          Function.comp_def, add_assoc, List.filter_map, List.length_map]

/-- C5: the evaluation pass mutates nothing — it returns the network state
(parameters and gradient accumulators) exactly as it received it — and a
second consecutive pass from the state the first one left behind yields the
identical loss/accuracy aggregates and metrics. -/
theorem eval_pass_pure {P G α : Type} (forward : P → α → List ℚ)
    (lossFn : List ℚ → ℕ → ℚ) (st : NetState P G)
    (batches : List (List (α × ℕ))) :
    (testPass forward lossFn st batches).1 = st ∧
      testPass forward lossFn (testPass forward lossFn st batches).1 batches =
        testPass forward lossFn st batches ∧
      (∀ n, testMetrics forward lossFn
          (testPass forward lossFn st batches).1 batches n =
        testMetrics forward lossFn st batches n) := by
  have h1 : (testPass forward lossFn st batches).1 = st :=
    testPass_foldl_fst forward lossFn batches st 0 0
  exact ⟨h1, by rw [h1], fun n => by rw [h1]⟩

/-- C6: over a non-empty evaluation supply whose batches partition the
dataset, and for a per-sample loss that is everywhere nonnegative (as the
cross-entropy loss is), the reported mean loss is the total summed loss
divided by the total sample count and is ≥ 0, and the reported accuracy is
the number of arg-max hits divided by the total sample count, a value in
[0, 1]. -/
theorem eval_metrics_spec {P G α : Type} (forward : P → α → List ℚ)
    (lossFn : List ℚ → ℕ → ℚ) (st : NetState P G)
    (dataset : List (α × ℕ)) (batches : List (List (α × ℕ)))
    (hjoin : batches.flatten = dataset) (hne : dataset ≠ [])
    (hnn : ∀ out y, 0 ≤ lossFn out y) :
    (testMetrics forward lossFn st batches dataset.length).1 =
        (dataset.map (fun s => lossFn (forward st.params s.1) s.2)).sum /
          dataset.length ∧
      0 ≤ (testMetrics forward lossFn st batches dataset.length).1 ∧
      (testMetrics forward lossFn st batches dataset.length).2 =
        (dataset.countP
            (fun s => argmaxIdx (forward st.params s.1) == s.2) : ℚ) /
          dataset.length ∧
      0 ≤ (testMetrics forward lossFn st batches dataset.length).2 ∧
      (testMetrics forward lossFn st batches dataset.length).2 ≤ 1 := by
  subst hjoin
  have hm := testPass_foldl_metrics forward lossFn batches st 0 0
  have hloss : (testPass forward lossFn st batches).2.1 =
      (batches.flatten.map
        (fun s => lossFn (forward st.params s.1) s.2)).sum := by
    rw [testPass, hm.1, zero_add, List.map_flatten, List.sum_flatten,
      List.map_map]
    rfl
  have hcorr : (testPass forward lossFn st batches).2.2 =
      batches.flatten.countP
        (fun s => argmaxIdx (forward st.params s.1) == s.2) := by
    rw [testPass, hm.2, zero_add, List.countP_flatten]
  have hlen : (0 : ℚ) < (batches.flatten.length : ℚ) := by
    exact_mod_cast List.length_pos.2 hne
  refine ⟨?_, ?_, ?_, ?_, ?_⟩
  · rw [testMetrics, hloss]
  · rw [testMetrics, hloss]
    refine div_nonneg (List.sum_nonneg ?_) (le_of_lt hlen)
    intro x hx
    obtain ⟨s, _, rfl⟩ := List.mem_map.1 hx
    exact hnn _ _
  · rw [testMetrics, hcorr]
  · rw [testMetrics]
    exact div_nonneg (by positivity) (le_of_lt hlen)
  · rw [testMetrics, hcorr]
    rw [div_le_one hlen]
    exact_mod_cast List.countP_le_length _

/-- Witness for C6: a one-sample supply where the constant-1 loss and the
arg-max both evaluate concretely. -/
theorem eval_metrics_spec_witness :
    (testMetrics (fun (_ : Unit) (q : ℚ) => [q]) (fun _ _ => 1)
        (⟨(), ()⟩ : NetState Unit Unit) [[((0 : ℚ), 0)]] 1).1 =
        (([((0 : ℚ), 0)]).map
          (fun s => (fun (_ : List ℚ) (_ : ℕ) => (1 : ℚ)) [s.1] s.2)).sum / 1 ∧
      0 ≤ (testMetrics (fun (_ : Unit) (q : ℚ) => [q]) (fun _ _ => 1)
        (⟨(), ()⟩ : NetState Unit Unit) [[((0 : ℚ), 0)]] 1).1 ∧
      (testMetrics (fun (_ : Unit) (q : ℚ) => [q]) (fun _ _ => 1)
        (⟨(), ()⟩ : NetState Unit Unit) [[((0 : ℚ), 0)]] 1).2 =
        (([((0 : ℚ), 0)]).countP (fun s => argmaxIdx [s.1] == s.2) : ℚ) / 1 ∧
      0 ≤ (testMetrics (fun (_ : Unit) (q : ℚ) => [q]) (fun _ _ => 1)
        (⟨(), ()⟩ : NetState Unit Unit) [[((0 : ℚ), 0)]] 1).2 ∧
      (testMetrics (fun (_ : Unit) (q : ℚ) => [q]) (fun _ _ => 1)
        (⟨(), ()⟩ : NetState Unit Unit) [[((0 : ℚ), 0)]] 1).2 ≤ 1 :=
  eval_metrics_spec (fun _ q => [q]) (fun _ _ => 1) ⟨(), ()⟩
    [((0 : ℚ), 0)] [[((0 : ℚ), 0)]] rfl (by simp) (fun _ _ => by norm_num)

/-- C7: the four seed calls run before dataset construction and before
model construction, so interpreting the trace over the pseudo-random-source
states shows: whatever states the sources had before the run, the states
seen by the dataset builder, by the model builder, and at every point after
(the whole run, the first training epoch included) are identical between
any two runs with the same configuration — parameter initialization and
the first-epoch loss are functions of the seed and the configuration
alone. -/
theorem seeding_before_construction (cuda : Bool) (raw : RawArgs)
    (s₀ s₁ : RngStates) :
    rngAtFirst isDataBuild (mainTrace cuda raw) s₀ =
        rngAtFirst isDataBuild (mainTrace cuda raw) s₁ ∧
      rngAtFirst isModelBuild (mainTrace cuda raw) s₀ =
        rngAtFirst isModelBuild (mainTrace cuda raw) s₁ ∧
      rngRun (mainTrace cuda raw) s₀ = rngRun (mainTrace cuda raw) s₁ ∧
      Event.buildTrainSet raw.data ∈ mainTrace cuda raw ∧
      Event.buildModel raw.model ∈ mainTrace cuda raw := by
  obtain ⟨t0, c0, p0, n0⟩ := s₀
  obtain ⟨t1, c1, p1, n1⟩ := s₁
  cases h : useCuda cuda raw <;>
    refine ⟨?_, ?_, ?_, ?_, ?_⟩ <;>
      simp [mainTrace, h, rngAtFirst, rngStep, rngRun, isDataBuild,
        isModelBuild]

lemma progressAux_cons (n i acc b : ℕ) (rest : List ℕ) :
    progressAux n i acc (b :: rest) =
      progressEntry n i acc b ::
        progressAux n (i + 1) (progressEntry n i acc b).2 rest := rfl

lemma progressAux_getD :
    ∀ (l : List ℕ) (n i0 acc j : ℕ), j < l.length →
      (progressAux n i0 acc l).getD j (false, 0) =
        progressEntry n (i0 + j)
          (if j = 0 then acc
           else ((progressAux n i0 acc l).getD (j - 1) (false, 0)).2)
          (l.getD j 0) := by
  intro l
  induction l with
  | nil => intro n i0 acc j hj; simp at hj
  | cons b rest ih =>
      intro n i0 acc j hj
      match j with
      | 0 => simp [progressAux_cons, List.getD_cons_zero]
      | j' + 1 =>
          have hj' : j' < rest.length := Nat.lt_of_succ_lt_succ (by simpa using hj)
          have H := ih n (i0 + 1) (progressEntry n i0 acc b).2 j' hj'
          have harith : i0 + 1 + j' = i0 + (j' + 1) := by omega
          rw [progressAux_cons, List.getD_cons_succ, H, harith]
          congr 1
          match j' with
          | 0 => simp [progressAux_cons, List.getD_cons_zero]
          | k + 1 =>
              simp [progressAux_cons, List.getD_cons_succ, Nat.succ_sub_one]

/-- C8: during a training epoch, batch `i` flushes a progress update
exactly when the samples accumulated since the last flush (the carried
counter plus the current batch) exceed 2000 or `i` is the last batch; a
flushing batch resets the counter to zero, a non-flushing batch carries the
accumulated count forward. -/
theorem progress_flush_policy (sizes : List ℕ) (i : ℕ)
    (hi : i < sizes.length) :
    (((progressTrace sizes).getD i (false, 0)).1 = true ↔
        (flushThreshold < accBefore sizes i + sizes.getD i 0 ∨
          i = sizes.length - 1)) ∧
      (((progressTrace sizes).getD i (false, 0)).1 = true →
        ((progressTrace sizes).getD i (false, 0)).2 = 0) ∧
      (((progressTrace sizes).getD i (false, 0)).1 = false →
        ((progressTrace sizes).getD i (false, 0)).2 =
          accBefore sizes i + sizes.getD i 0) := by
  have H := progressAux_getD sizes sizes.length 0 0 i hi
  have hprev : (if i = 0 then 0
      else ((progressAux sizes.length 0 0 sizes).getD (i - 1) (false, 0)).2) =
      accBefore sizes i := by
    match i with
    | 0 => rfl
    | k + 1 => simp [accBefore, progressTrace]
  rw [hprev, Nat.zero_add] at H
  have Ht : (progressTrace sizes).getD i (false, 0) =
      progressEntry sizes.length i (accBefore sizes i) (sizes.getD i 0) := H
  rw [Ht]
  refine ⟨?_, ?_, ?_⟩
  · simp [progressEntry]
  · intro h
    simp only [progressEntry] at h ⊢
    rw [if_pos h]
  · intro h
    simp only [progressEntry] at h ⊢
    rw [if_neg (by rw [h]; exact Bool.false_ne_true)]

/-- Witness for C8: with batch sizes `[2500, 5, 7]`, the first batch
(index 0) pushes the counter past 2000 and flushes. -/
theorem progress_flush_policy_witness :
    (((progressTrace [2500, 5, 7]).getD 0 (false, 0)).1 = true ↔
        (flushThreshold <
            accBefore [2500, 5, 7] 0 + ([2500, 5, 7] : List ℕ).getD 0 0 ∨
          (0 : ℕ) = ([2500, 5, 7] : List ℕ).length - 1)) ∧
      (((progressTrace [2500, 5, 7]).getD 0 (false, 0)).1 = true →
        ((progressTrace [2500, 5, 7]).getD 0 (false, 0)).2 = 0) ∧
      (((progressTrace [2500, 5, 7]).getD 0 (false, 0)).1 = false →
        ((progressTrace [2500, 5, 7]).getD 0 (false, 0)).2 =
          accBefore [2500, 5, 7] 0 + ([2500, 5, 7] : List ℕ).getD 0 0) :=
  progress_flush_policy [2500, 5, 7] 0 (by decide)

end TinyImageNet
